import Mathlib

/-!
Verification development for the miner panel module (src/main.py).

The module polls WhatsMiner devices over TCP (commands "summary" and "devs"),
normalizes the JSON replies into per-device status records, and keeps a
login/week report bucketed by the Jalali calendar week starting on Saturday.

Modelling conventions used throughout this shallow embedding:

* JSON values (the results of json.loads) are an inductive `Json`; Python's
  None is `Json.null` (json.loads maps null to None, and dict.get returns
  None for a missing key, so the two are observationally identical).
* Python numbers (int and float) are modelled as exact rationals; binary
  floating-point representation error is out of scope.  Python bool is a
  subclass of int, so booleans count as numbers where isinstance(int, float)
  is tested.
* The network and the decode pipeline of send_tcp_json (lines 52-80) are an
  oracle `Net`: `some j` means a reply arrived for that (ip, port, payload)
  and decoded to `j`; `none` means unreachable / empty / undecodable.
* Python exceptions that escape a function are `Except.error ()`; exceptions
  swallowed by a local try/except are handled in place.
* list.sort() / sorted(...) are modelled by insertion sort, a stable sort
  agreeing with Python's sort for the total orders used here.
* Times for the login tracker are absolute seconds (ℕ) of the Asia/Tehran
  local clock; a calendar date is its absolute (Jalali) day number t / 86400,
  standing for the formatted "%Y/%m/%d" string (formatting is injective on
  dates), with the epoch day 0 chosen to be a Saturday so that jdatetime's
  weekday() (Saturday = 0) is day % 7.  A "%H:%M:%S" time-of-day string is
  its second-of-day t % 86400 (the zero-padded string order coincides with
  numeric order).
-/

/-- JSON values as produced by json.loads. -/
inductive Json where
  | null
  | bool (b : Bool)
  | num (q : ℚ)
  | str (s : String)
  | arr (elems : List Json)
  | obj (fields : List (String × Json))

/-- Python truthiness of a decoded JSON value. -/
def Json.truthy : Json → Bool
  | .null => false
  | .bool b => b
  | .num q => decide (q ≠ 0)
  | .str s => decide (s ≠ "")
  | .arr elems => !elems.isEmpty
  | .obj fields => !fields.isEmpty

/-- Identity test against Python None (models the `is not None` checks). -/
def Json.isNull : Json → Bool
  | .null => true
  | _ => false

/-- isinstance(x, (int, float)) together with the numeric value: Python bool
is a subclass of int. -/
def Json.asNumber : Json → Option ℚ
  | .num q => some q
  | .bool b => some (if b then 1 else 0)
  | _ => none

/-- dict lookup (first binding; the model values carry unique keys). -/
def objGet : List (String × Json) → String → Option Json
  | [], _ => none
  | kv :: rest, k => if kv.1 = k then some kv.2 else objGet rest k

/-- data.get(key) on an arbitrary value: AttributeError unless it is a dict;
a missing key gives None. -/
def pyGet (d : Json) (k : String) : Except Unit Json :=
  match d with
  | .obj fields => .ok ((objGet fields k).getD .null)
  | _ => .error ()

/-- value[0] in Python: first element of a list, first character of a string,
otherwise KeyError/TypeError (our dicts have string keys, so dict[0] fails). -/
def pyIndex0 : Json → Except Unit Json
  | .arr (x :: _) => .ok x
  | .arr [] => .error ()
  | .str s =>
    match s.data with
    | c :: _ => .ok (.str (String.mk [c]))
    | [] => .error ()
  | _ => .error ()

/-- for-iteration in Python: elements of a list, characters of a string,
keys of a dict; anything else raises TypeError. -/
def pyIterElems : Json → Except Unit (List Json)
  | .arr elems => .ok elems
  | .str s => .ok (s.data.map (fun c => Json.str (String.mk [c])))
  | .obj fields => .ok (fields.map (fun kv => Json.str kv.1))
  | _ => .error ()

/-- whitespace characters stripped by int()/float() on strings. -/
def isSpaceChar (c : Char) : Bool :=
  c = ' ' || c = '\t' || c = '\n' || c = '\r'

def trimChars (cs : List Char) : List Char :=
  ((cs.dropWhile isSpaceChar).reverse.dropWhile isSpaceChar).reverse

def digitVal (c : Char) : Option ℕ :=
  if '0' ≤ c ∧ c ≤ '9' then some (c.toNat - 48) else none

def digitsToNatGo : List Char → ℕ → Option ℕ
  | [], acc => some acc
  | c :: cs, acc =>
    match digitVal c with
    | some v => digitsToNatGo cs (acc * 10 + v)
    | none => none

/-- Value of a nonempty all-digit character sequence. -/
def digitsToNat : List Char → Option ℕ
  | [] => none
  | cs => digitsToNatGo cs 0

def stripSign : List Char → Bool × List Char
  | '-' :: cs => (true, cs)
  | '+' :: cs => (false, cs)
  | cs => (false, cs)

/-- int(s) for a string: optional whitespace, optional sign, digits. -/
def strToIntPy (s : String) : Option ℤ :=
  let sn := stripSign (trimChars s.data)
  (digitsToNat sn.2).map (fun n => if sn.1 then -(n : ℤ) else (n : ℤ))

/-- float(s) for a string: optional whitespace, optional sign, digits with an
optional fractional part (the common forms; exponents etc. are not needed
by any reply shape considered here). -/
def strToRatPy (s : String) : Option ℚ :=
  let sn := stripSign (trimChars s.data)
  let ip := sn.2.takeWhile (fun c => c != '.')
  let rest := sn.2.dropWhile (fun c => c != '.')
  let mag : Option ℚ :=
    match rest with
    | [] => (digitsToNat ip).map (fun n => (n : ℚ))
    | _ :: fp =>
      match digitsToNat ip, digitsToNat fp with
      | some a, some b => some ((a : ℚ) + (b : ℚ) / (10 : ℚ) ^ fp.length)
      | _, _ => none
  mag.map (fun q => if sn.1 then -q else q)

/-- int() truncates toward zero (the denominator of a ℚ is positive). -/
def pyTrunc (q : ℚ) : ℤ := q.num.tdiv q.den

/-- int(x) on a JSON value: numbers truncate, bools are 0/1, numeric strings
parse; everything else raises. -/
def pyInt : Json → Except Unit ℤ
  | .num q => .ok (pyTrunc q)
  | .bool b => .ok (if b then 1 else 0)
  | .str s =>
    match strToIntPy s with
    | some n => .ok n
    | none => .error ()
  | _ => .error ()

/-- float(x) on a JSON value. -/
def pyFloat : Json → Except Unit ℚ
  | .num q => .ok q
  | .bool b => .ok (if b then 1 else 0)
  | .str s =>
    match strToRatPy s with
    | some q => .ok q
    | none => .error ()
  | _ => .error ()

/-- Round to the nearest integer, ties to even (Python's round). -/
def roundHalfEven (q : ℚ) : ℤ :=
  let f : ℤ := q.num.fdiv q.den
  let r2 : ℤ := 2 * (q.num - f * q.den)
  if r2 < (q.den : ℤ) then f
  else if (q.den : ℤ) < r2 then f + 1
  else if f % 2 = 0 then f else f + 1

/-- round(q, p): round to p decimal places, ties to even. -/
def roundTo (p : ℕ) (q : ℚ) : ℚ := (roundHalfEven (q * 10 ^ p) : ℚ) / 10 ^ p

/-- Python's " ".join. -/
def joinSpace : List String → String
  | [] => ""
  | s :: rest => rest.foldl (fun acc x => acc ++ " " ++ x) s

/-- format_seconds_pretty (src/main.py lines 85-98): days/hours/minutes are
emitted when non-zero; seconds appear only when no other part was emitted.
Int division and remainder are Euclidean, matching Python's divmod for the
positive divisors used. -/
def format_seconds_pretty (sec : ℤ) : String :=
  let days := sec / 86400
  let rem := sec % 86400
  let hours := rem / 3600
  let rem2 := rem % 3600
  let minutes := rem2 / 60
  let seconds := rem2 % 60
  let parts : List String :=
    (if days ≠ 0 then [toString days ++ "d"] else []) ++
    (if hours ≠ 0 then [toString hours ++ "h"] else []) ++
    (if minutes ≠ 0 then [toString minutes ++ "m"] else [])
  let parts := if parts.isEmpty ∧ seconds ≠ 0 then [toString seconds ++ "s"] else parts
  joinSpace parts

/-- Result dict of parse_summary.  The source returns a dict; the two early
`return {}` sites are modelled by `SummaryFields.empty`, observationally
identical to the full dict because every consumer reads it with .get. -/
structure SummaryFields where
  uptime : Option String
  hashrate : Json
  power : Option ℤ
  temp_avg : Option ℚ

def SummaryFields.empty : SummaryFields := ⟨none, .null, none, none⟩

/-- Lines 107-114: locate the payload dict, Python's `data` (None when no
branch applies or indexing [0] raised inside the guarded try). -/
def msgData (fields : List (String × Json)) : Option Json :=
  match objGet fields "Msg" with
  | some (.obj m) => some (.obj m)
  | _ => none

def summaryPayloadData (summary_json : Json) : Option Json :=
  match summary_json with
  | .obj fields =>
    match objGet fields "SUMMARY" with
    | some s => if s.truthy then (pyIndex0 s).toOption else msgData fields
    | none => msgData fields
  | _ => none

/-- parse_summary (lines 100-145).  The conversions of hashrate, power and
temperature are wrapped in try/except in the source and so are total here;
`int(uptime)` on line 131 is NOT guarded, which is the only way the function
can raise (besides .get on a truthy non-dict payload, lines 117-120). -/
def parse_summary (summary_json : Json) : Except Unit SummaryFields :=
  if ¬ summary_json.truthy then .ok SummaryFields.empty
  else
    match summaryPayloadData summary_json with
    | none => .ok SummaryFields.empty
    | some data =>
      if ¬ data.truthy then .ok SummaryFields.empty
      else do
        let mhs_av ← pyGet data "MHS av"
        let uptimeA ← pyGet data "Uptime"
        let uptimeRaw ← if uptimeA.truthy then pure uptimeA else pyGet data "Elapsed"
        let power ← pyGet data "Power"
        let temp ← pyGet data "Temperature"
        let hashrate : Json :=
          if mhs_av.isNull then .null
          else
            match mhs_av.asNumber with
            | some v => if 1000000 < v then .num (roundTo 2 (v / 1000000)) else mhs_av
            | none => mhs_av
        let uptime_str : Option String ←
          if uptimeRaw.truthy then do
            let n ← pyInt uptimeRaw
            pure (some (format_seconds_pretty n))
          else pure none
        let power_val : Option ℤ := if power.isNull then none else (pyInt power).toOption
        let temp_val : Option ℚ :=
          if temp.isNull then none else ((pyFloat temp).map (roundTo 1)).toOption
        .ok ⟨uptime_str, hashrate, power_val, temp_val⟩

/-- Body of the per-board loop of parse_devs (lines 157-163): the whole body
is inside try/except continue, so any failure just skips the board. -/
def devsStep (acc : List ℚ) (board : Json) : List ℚ :=
  match board with
  | .obj bfields =>
    match objGet bfields "Temperature" with
    | some t =>
      if t.isNull then acc
      else
        match pyFloat t with
        | .ok v => acc ++ [roundTo 1 v]
        | .error _ => acc
    | none => acc
  | _ => acc

/-- parse_devs (lines 147-164).  The for statement itself is outside the
try/except, so a truthy non-iterable DEVS value raises. -/
def parse_devs (devs_json : Json) : Except Unit (List ℚ) :=
  match devs_json with
  | .obj fields =>
    if ¬ (Json.obj fields).truthy then .ok []
    else
      match objGet fields "DEVS" with
      | none => .ok []
      | some devs =>
        if ¬ devs.truthy then .ok []
        else do
          let boards ← pyIterElems devs
          .ok (boards.foldl devsStep [])
  | _ => .ok []

/-- Request payload: the module always sends the legacy shape
with the shared default token (lines 187-188). -/
structure Payload where
  cmd : String
  token : String

def DEFAULT_TOKEN : String :=
  "e6302477f23b4e0f6d41e5426cc37581e74d5719a3784a04631e2d1c82602dfd"

/-- Oracle for the transport plus decode pipeline of send_tcp_json
(lines 52-80): `some j` when the TCP exchange with ip:port for this payload
produced bytes that decoded (directly or via the substring fallback) to `j`;
`none` for connection failure, timeout with no data, empty or undecodable
payloads. -/
def Net : Type := String → ℕ → Payload → Option Json

/-- send_tcp_json (lines 41-82): a falsy ip (None or "") short-circuits to
None before any network activity. -/
def send_tcp_json (net : Net) (ip : Option String) (port : ℕ) (payload : Payload) :
    Option Json :=
  match ip with
  | none => none
  | some s => if s = "" then none else net s port payload

structure Miner where
  name : String
  ip : Option String
  port : ℕ

/-- Per-device result dict of poll_miner (lines 174-181). -/
structure MinerResult where
  name : String
  alive : Bool
  hashrate : Json
  uptime : Option String
  power : Option ℤ
  board_temps : List ℚ

def minerLabel (m : Miner) : String := m.name ++ " (" ++ toString m.port ++ ")"

/-- The initial result dict: offline, every field absent. -/
def offlineResult (m : Miner) : MinerResult :=
  ⟨minerLabel m, false, .null, none, none, []⟩

def ipTruthy : Option String → Bool
  | none => false
  | some s => decide (s ≠ "")

/-- Only truthy decoded replies are kept: poll_miner stores a response and
sets any_response under `if resp:` (line 191), so a reply decoding to a
falsy value (e.g. the empty object) is discarded like no reply at all. -/
def truthyFilter : Option Json → Option Json
  | some j => if j.truthy then some j else none
  | none => none

/-- poll_miner (lines 167-212).  The summary fields default to absent and are
overwritten only when a truthy summary reply arrived; board temperatures
likewise from the devs reply.  parse_summary (and parse_devs) can raise, and
poll_miner does not catch that. -/
def poll_miner (net : Net) (m : Miner) : Except Unit MinerResult :=
  if ¬ ipTruthy m.ip then .ok (offlineResult m)
  else
    let sResp := truthyFilter (send_tcp_json net m.ip m.port ⟨"summary", DEFAULT_TOKEN⟩)
    let dResp := truthyFilter (send_tcp_json net m.ip m.port ⟨"devs", DEFAULT_TOKEN⟩)
    if sResp.isNone && dResp.isNone then .ok (offlineResult m)
    else do
      let fields ←
        match sResp with
        | some j => parse_summary j
        | none => pure SummaryFields.empty
      let temps ←
        match dResp with
        | some j => parse_devs j
        | none => pure ([] : List ℚ)
      .ok ⟨minerLabel m, true, fields.hashrate, fields.uptime, fields.power, temps⟩

/-- fut.result() under try/except (lines 232-237): an exception from a
device task is converted to a minimal offline record.  The Python fallback
dict carries only the name and alive keys; all consumers read the other
keys with .get / template defaulting, so it is observationally the
all-absent record. -/
def pollOrFallback (net : Net) (m : Miner) : MinerResult :=
  match poll_miner net m with
  | .ok r => r
  | .error _ => ⟨minerLabel m, false, .null, none, none, []⟩

/-- Code-point lexicographic string order, Python's str comparison. -/
def charsLe : List Char → List Char → Bool
  | [], _ => true
  | _ :: _, [] => false
  | a :: as, b :: bs =>
    if a.toNat < b.toNat then true
    else if b.toNat < a.toNat then false
    else charsLe as bs

/-- sorted(out, key=lambda x: x["name"]) sorts by the name string. -/
def recLe (a b : MinerResult) : Prop := charsLe a.name.data b.name.data = true

instance : DecidableRel recLe :=
  fun a b => inferInstanceAs (Decidable (charsLe a.name.data b.name.data = true))

theorem charsLe_total : ∀ a b, charsLe a b = true ∨ charsLe b a = true := by
  intro a
  induction a with
  | nil => intro b; left; rfl
  | cons x xs ih =>
    intro b
    cases b with
    | nil => right; rfl
    | cons y ys =>
      by_cases h1 : x.toNat < y.toNat
      · left; simp [charsLe, h1]
      · by_cases h2 : y.toNat < x.toNat
        · right; simp [charsLe, h2]
        · rcases ih ys with h | h
          · left; simp [charsLe, h1, h2, h]
          · right; simp [charsLe, h1, h2, h]

theorem charsLe_trans : ∀ a b c, charsLe a b = true → charsLe b c = true →
    charsLe a c = true := by
  intro a
  induction a with
  | nil => intro b c _ _; rfl
  | cons x xs ih =>
    intro b c hab hbc
    cases b with
    | nil => simp [charsLe] at hab
    | cons y ys =>
      cases c with
      | nil => simp [charsLe] at hbc
      | cons z zs =>
        simp only [charsLe] at hab hbc ⊢
        split at hab
        · next h1 =>
          split
          · rfl
          · next h2 =>
            split at hbc
            · omega
            · next h3 =>
              split at hbc
              · simp at hbc
              · omega
        · next h1 =>
          split at hab
          · simp at hab
          · next h2 =>
            split at hbc
            · next h3 => split <;> [rfl; omega]
            · next h3 =>
              split at hbc
              · simp at hbc
              · next h4 =>
                split
                · rfl
                · next h5 =>
                  split
                  · omega
                  · exact ih ys zs hab hbc

instance : IsTotal MinerResult recLe :=
  ⟨fun a b => charsLe_total a.name.data b.name.data⟩

instance : IsTrans MinerResult recLe :=
  ⟨fun a b c => charsLe_trans a.name.data b.name.data c.name.data⟩

/-- The fan-out/join/sort of get_live_data (lines 230-239), for an arbitrary
device list: each device is polled independently (task failure becomes the
fallback record, never a coordinator failure) and the joined results are
sorted by name. -/
def get_live_data_core (net : Net) (miners : List Miner) : List MinerResult :=
  List.insertionSort recLe (miners.map (pollOrFallback net))

def MINER_NAMES : List String := ["131", "132", "133", "65", "66", "70"]

def MINER_PORTS : List ℕ := [204, 205, 206, 304, 305, 306]

/-- build_miners (lines 214-223): the configured address is shared by all
entries. -/
def build_miners (minerIp : Option String) : List Miner :=
  (MINER_NAMES.zip MINER_PORTS).map (fun np => ⟨np.1, minerIp, np.2⟩)

/-- get_live_data (lines 225-239), with the MINER_IP environment value as an
explicit argument. -/
def get_live_data (minerIp : Option String) (net : Net) : List MinerResult :=
  let miners := if ipTruthy minerIp then build_miners minerIp else []
  if miners.isEmpty then [] else get_live_data_core net miners

/-- calculate_total_hashrate (lines 241-249): alive records with a present
hashrate contribute float(hashrate); a non-convertible value is skipped. -/
def calculate_total_hashrate (miners : List MinerResult) : ℚ :=
  roundTo 2 (miners.foldl
    (fun total m =>
      if m.alive && !m.hashrate.isNull then
        match pyFloat m.hashrate with
        | .ok v => total + v
        | .error _ => total
      else total)
    0)

/-- The login_data module state (lines 34-38).  Dates are absolute Jalali day
numbers (standing for the "%Y/%m/%d" strings in the keys), times of day are
seconds in the day (standing for "%H:%M:%S" strings; lexicographic order on
the zero-padded strings equals numeric order), and last_login_time is an
absolute second count. -/
structure LoginData where
  current_week : List (ℕ × List ℕ)
  current_saturday : Option ℕ
  last_login_time : Option ℕ

def init_login_data : LoginData := ⟨[], none, none⟩

def dayOf (t : ℕ) : ℕ := t / 86400

def todOf (t : ℕ) : ℕ := t % 86400

/-- get_current_saturday (lines 252-261): subtract jdatetime's weekday()
(Saturday = 0, here day % 7 by the epoch convention) in days from now. -/
def get_current_saturday (t : ℕ) : ℕ :=
  let d := dayOf t
  d - d % 7

/-- should_record_login (lines 263-269): true when no visit is recorded yet
or the last one is at least 300 seconds old (a clock step backwards gives a
negative timedelta, which also fails the test). -/
def should_record_login (st : LoginData) (t : ℕ) : Bool :=
  match st.last_login_time with
  | none => true
  | some t0 => decide ((300 : ℤ) ≤ (t : ℤ) - (t0 : ℤ))

def weekLookup (week : List (ℕ × List ℕ)) (d : ℕ) : Option (List ℕ) :=
  match week with
  | [] => none
  | kv :: rest => if kv.1 = d then some kv.2 else weekLookup rest d

/-- list.append(x) followed by list.sort() (lines 286-287). -/
def pySortedAppend (l : List ℕ) (x : ℕ) : List ℕ :=
  List.insertionSort (fun a b => a ≤ b) (l ++ [x])

/-- Lines 282-287: create the date's bucket if missing, then append the
time-of-day and re-sort unless it is already present. -/
def bucketAdd (week : List (ℕ × List ℕ)) (d tod : ℕ) : List (ℕ × List ℕ) :=
  let week1 := if (weekLookup week d).isNone then week ++ [(d, [])] else week
  week1.map (fun kv =>
    if kv.1 == d && !kv.2.contains tod then (kv.1, pySortedAppend kv.2 tod) else kv)

/-- update_login_data (lines 271-288): rate limit, week rollover (clearing
the bucket when the computed saturday differs from the stored one), then
dedup-insert of the time-of-day under the current date. -/
def update_login_data (st : LoginData) (t : ℕ) : LoginData :=
  if ¬ should_record_login st t then st
  else
    let sat := get_current_saturday t
    let base : List (ℕ × List ℕ) × Option ℕ :=
      if st.current_saturday = some sat then (st.current_week, st.current_saturday)
      else ([], some sat)
    ⟨bucketAdd base.1 (dayOf t) (todOf t), base.2, some t⟩

/-- Total number of stored time entries across the week bucket. -/
def totalLogins (st : LoginData) : ℕ :=
  (st.current_week.map (fun kv => kv.2.length)).sum

structure DayReport where
  date : ℕ
  day_name : String
  logins : List ℕ
  count : ℕ

structure WeekReport where
  saturday : ℕ
  days : List DayReport

def week_days_persian : List String :=
  ["شنبه", "یکشنبه", "دوشنبه", "سه‌شنبه", "چهارشنبه", "پنجشنبه", "جمعه"]

/-- get_week_report (lines 290-308): `login_data["current_saturday"] or
get_current_saturday()` — the freshly computed saturday is used only when no
anchor is stored (a stored anchor string is always truthy); the stored week
bucket is read as-is.  The function performs no writes to the state. -/
def get_week_report (st : LoginData) (t : ℕ) : WeekReport :=
  let saturday :=
    match st.current_saturday with
    | some s => s
    | none => get_current_saturday t
  ⟨saturday,
    (List.range 7).map (fun i =>
      let date := saturday + i
      let logins := (weekLookup st.current_week date).getD []
      ⟨date, week_days_persian.getD i "", logins, logins.length⟩)⟩

/-- Spec-side duration formatting, stated from the spec's words: empty for 0;
just the seconds for a positive sub-minute duration; otherwise exactly the
non-zero day/hour/minute units, in order, and no seconds component. -/
def formatDurationSpec (d : ℤ) : String :=
  if d = 0 then ""
  else if d < 60 then toString d ++ "s"
  else
    joinSpace
      ((([((d / 86400 : ℤ), "d"), (d % 86400 / 3600, "h"), (d % 3600 / 60, "m")]).filter
        (fun u => decide (u.1 ≠ 0))).map (fun u => toString u.1 ++ u.2))

/-- C6: for every duration d ≥ 0, format_seconds_pretty omits zero leading
units, emits the non-zero units down to minutes, includes the seconds
component exactly when d is positive and no larger unit is present, and
formats 0 as the empty string — i.e. it agrees with the spec-side
characterization formatDurationSpec. -/
theorem format_seconds_characterization (d : ℤ) (h : 0 ≤ d) :
    format_seconds_pretty d = formatDurationSpec d := by
  unfold format_seconds_pretty formatDurationSpec
  dsimp only
  have hm : d % 86400 % 3600 = d % 3600 := by omega
  by_cases h0 : d = 0
  · subst h0; rfl
  · rw [if_neg h0]
    by_cases h60 : d < 60
    · have hd : d / 86400 = 0 := by omega
      have hh : d % 86400 / 3600 = 0 := by omega
      have hmin : d % 86400 % 3600 / 60 = 0 := by omega
      have hsec : d % 86400 % 3600 % 60 = d := by omega
      rw [if_pos h60]
      simp [hd, hh, hmin, hsec, h0, joinSpace]
    · rw [if_neg h60]
      rw [hm]
      by_cases c1 : d / 86400 = 0 <;> by_cases c2 : d % 86400 / 3600 = 0 <;>
        by_cases c3 : d % 3600 / 60 = 0
      · exact absurd (by omega : d < 60) h60
      all_goals simp [c1, c2, c3, List.filter]

theorem format_seconds_characterization_witness :
    format_seconds_pretty 90000 = formatDurationSpec 90000 ∧
      formatDurationSpec 90000 = "1d 1h" ∧
      format_seconds_pretty 45 = formatDurationSpec 45 ∧
      formatDurationSpec 45 = "45s" ∧
      format_seconds_pretty 0 = formatDurationSpec 0 ∧
      formatDurationSpec 0 = "" :=
  ⟨format_seconds_characterization 90000 (by decide), by decide,
   format_seconds_characterization 45 (by decide), by decide,
   format_seconds_characterization 0 (by decide), by decide⟩

/-- C5: for every numeric raw hashrate value v in a summary reply (either
firmware shape), the normalized hashrate equals v / 1,000,000 rounded to two
decimal places when v > 1,000,000, and v unchanged otherwise. -/
theorem hashrate_normalization (q : ℚ) :
    (parse_summary (.obj [("SUMMARY", .arr [.obj [("MHS av", .num q)]])])).map
        (fun f => f.hashrate) =
      .ok (if 1000000 < q then Json.num (roundTo 2 (q / 1000000)) else Json.num q) ∧
    (parse_summary (.obj [("Msg", .obj [("MHS av", .num q)])])).map
        (fun f => f.hashrate) =
      .ok (if 1000000 < q then Json.num (roundTo 2 (q / 1000000)) else Json.num q) := by
  constructor <;>
    by_cases h : 1000000 < q <;>
      simp [parse_summary, summaryPayloadData, msgData, objGet, pyGet, pyIndex0,
        Json.truthy, Json.isNull, Json.asNumber, SummaryFields.empty, h,
        Except.map, Except.pure, Except.bind, bind, pure, Except.toOption,
        Option.getD]

def uptimeCrashSummary : Json :=
  .obj [("SUMMARY", .arr [.obj [("Uptime", .str "soon")]])]

def uptimeCrashDevs : Json :=
  .obj [("DEVS", .arr [.obj [("Temperature", .num 60)]])]

def uptimeCrashNet : Net := fun _ _ p =>
  if p.cmd = "summary" then some uptimeCrashSummary
  else if p.cmd = "devs" then some uptimeCrashDevs else none

def uptimeCrashMiner : Miner := ⟨"M", some "192.0.2.9", 204⟩

/-- C7: the claim that parse_summary never fails as a whole is the evident
intent (every other field conversion sits in try/except) but line 131 calls
int(uptime) unguarded: a summary reply whose Uptime is a non-numeric string
makes parse_summary raise ValueError, poll_miner propagates it, and the
coordinator falls back to a bare offline record — so the healthy devs reply's
board temperatures are lost, contradicting the claim. -/
theorem parse_summary_uptime_crash :
    parse_summary uptimeCrashSummary = .error () ∧
    parse_devs uptimeCrashDevs = .ok [roundTo 1 60] ∧
    poll_miner uptimeCrashNet uptimeCrashMiner = .error () ∧
    pollOrFallback uptimeCrashNet uptimeCrashMiner =
      ⟨"M (204)", false, .null, none, none, []⟩ :=
  ⟨rfl, rfl, rfl, rfl⟩

/-- C8: with no device address configured (MINER_IP unset or empty), the
refresh returns the empty device list; with any non-empty address the result
always has exactly the 6 configured records, whatever the network does — so
an empty result is an unambiguous "unconfigured" indicator, distinct from a
configured-but-all-offline snapshot. -/
theorem get_live_data_unconfigured :
    (∀ net, get_live_data none net = []) ∧
    (∀ net, get_live_data (some "") net = []) ∧
    (∀ ip net, ip ≠ "" → (get_live_data (some ip) net).length = 6) := by
  refine ⟨fun net => rfl, fun net => rfl, fun ip net h => ?_⟩
  have hip : ipTruthy (some ip) = true := by simp [ipTruthy, h]
  simp only [get_live_data, hip, if_true]
  rw [if_neg (by simp [build_miners, MINER_NAMES, MINER_PORTS])]
  unfold get_live_data_core
  rw [(List.perm_insertionSort recLe _).length_eq, List.length_map]
  rfl

theorem get_live_data_unconfigured_witness :
    get_live_data none (fun _ _ _ => none) = [] ∧
    get_live_data (some "") (fun _ _ _ => none) = [] ∧
    (get_live_data (some "10.0.0.1") (fun _ _ _ => none)).length = 6 :=
  ⟨get_live_data_unconfigured.1 _, get_live_data_unconfigured.2.1 _,
   get_live_data_unconfigured.2.2 "10.0.0.1" _ (by decide)⟩

/-- A falsy ip never reaches the network. -/
theorem send_none_of_falsy_ip (net : Net) (m : Miner) (p : Payload)
    (h : ipTruthy m.ip = false) : send_tcp_json net m.ip m.port p = none := by
  rcases hm : m.ip with _ | s
  · rfl
  · rw [hm] at h
    simp only [ipTruthy, decide_eq_false_iff_not, not_not] at h
    simp [send_tcp_json, h]

/-- C3 counterexample: the summary command returns a decodable reply (the
empty JSON object) and yet the record is marked not alive, because line 191's
`if resp:` discards falsy decoded values; so "alive iff at least one command
returned a decodable reply" is false as stated. -/
theorem poll_miner_falsy_reply_cex :
    send_tcp_json (fun _ _ p => if p.cmd = "summary" then some (.obj []) else none)
        (some "10.0.0.1") 5 ⟨"summary", DEFAULT_TOKEN⟩ = some (.obj []) ∧
    poll_miner (fun _ _ p => if p.cmd = "summary" then some (.obj []) else none)
        ⟨"D", some "10.0.0.1", 5⟩ =
      .ok (offlineResult ⟨"D", some "10.0.0.1", 5⟩) ∧
    (offlineResult ⟨"D", some "10.0.0.1", 5⟩).alive = false :=
  ⟨rfl, rfl, rfl⟩

/-- C3 amended: a completed poll's record is alive iff at least one of the
two commands' replies decoded to a truthy value (a falsy decoded reply such
as the empty object counts as no reply); when both commands fail outright
the record is the fully offline one: hashrate/uptime/power absent and no
board temperatures. -/
theorem poll_miner_alive_iff_truthy (net : Net) (m : Miner) (r : MinerResult)
    (h : poll_miner net m = .ok r) :
    r.alive =
      ((truthyFilter (send_tcp_json net m.ip m.port ⟨"summary", DEFAULT_TOKEN⟩)).isSome ||
        (truthyFilter (send_tcp_json net m.ip m.port ⟨"devs", DEFAULT_TOKEN⟩)).isSome) ∧
    (send_tcp_json net m.ip m.port ⟨"summary", DEFAULT_TOKEN⟩ = none →
      send_tcp_json net m.ip m.port ⟨"devs", DEFAULT_TOKEN⟩ = none →
      r = offlineResult m ∧ r.alive = false ∧ r.hashrate = .null ∧ r.uptime = none ∧
        r.power = none ∧ r.board_temps = []) := by
  by_cases hip : ipTruthy m.ip = true
  · rw [poll_miner, if_neg (by simp [hip])] at h
    rcases hS : truthyFilter (send_tcp_json net m.ip m.port ⟨"summary", DEFAULT_TOKEN⟩)
      with _ | js <;>
      rcases hD : truthyFilter (send_tcp_json net m.ip m.port ⟨"devs", DEFAULT_TOKEN⟩)
        with _ | jd
    · rw [hS, hD] at h
      have h2 : Except.ok (offlineResult m) = Except.ok r := h
      cases h2
      exact ⟨rfl, fun _ _ => ⟨rfl, rfl, rfl, rfl, rfl, rfl⟩⟩
    · rw [hS, hD] at h
      have h2 : Except.bind (parse_devs jd)
          (fun temps =>
            (Except.ok ⟨minerLabel m, true, .null, none, none, temps⟩ :
              Except Unit MinerResult)) = Except.ok r := h
      rcases hpd : parse_devs jd with e | temps <;> rw [hpd] at h2
      · exact Except.noConfusion h2
      · have h3 : Except.ok (⟨minerLabel m, true, .null, none, none, temps⟩ :
            MinerResult) = Except.ok r := h2
        cases h3
        refine ⟨rfl, fun _ hd2 => ?_⟩
        rw [hd2] at hD
        simp [truthyFilter] at hD
    · rw [hS, hD] at h
      have h2 : Except.bind (parse_summary js)
          (fun flds =>
            (Except.ok ⟨minerLabel m, true, flds.hashrate, flds.uptime, flds.power, []⟩ :
              Except Unit MinerResult)) = Except.ok r := h
      rcases hps : parse_summary js with e | flds <;> rw [hps] at h2
      · exact Except.noConfusion h2
      · have h3 : Except.ok (⟨minerLabel m, true, flds.hashrate, flds.uptime,
            flds.power, []⟩ : MinerResult) = Except.ok r := h2
        cases h3
        refine ⟨rfl, fun hs2 _ => ?_⟩
        rw [hs2] at hS
        simp [truthyFilter] at hS
    · rw [hS, hD] at h
      have h2 : Except.bind (parse_summary js)
          (fun flds => Except.bind (parse_devs jd)
            (fun temps =>
              (Except.ok ⟨minerLabel m, true, flds.hashrate, flds.uptime, flds.power,
                temps⟩ : Except Unit MinerResult))) = Except.ok r := h
      rcases hps : parse_summary js with e | flds <;> rw [hps] at h2
      · exact Except.noConfusion h2
      · have h4 : Except.bind (parse_devs jd)
            (fun temps =>
              (Except.ok ⟨minerLabel m, true, flds.hashrate, flds.uptime, flds.power,
                temps⟩ : Except Unit MinerResult)) = Except.ok r := h2
        rcases hpd : parse_devs jd with e | temps <;> rw [hpd] at h4
        · exact Except.noConfusion h4
        · have h3 : Except.ok (⟨minerLabel m, true, flds.hashrate, flds.uptime,
              flds.power, temps⟩ : MinerResult) = Except.ok r := h4
          cases h3
          refine ⟨rfl, fun hs2 _ => ?_⟩
          rw [hs2] at hS
          simp [truthyFilter] at hS
  · have hip2 : ipTruthy m.ip = false := by
      cases hb : ipTruthy m.ip
      · rfl
      · exact absurd hb hip
    have hs := send_none_of_falsy_ip net m ⟨"summary", DEFAULT_TOKEN⟩ hip2
    have hd := send_none_of_falsy_ip net m ⟨"devs", DEFAULT_TOKEN⟩ hip2
    rw [poll_miner, if_pos (by simp [hip2])] at h
    cases h
    exact ⟨by rw [hs, hd]; rfl, fun _ _ => ⟨rfl, rfl, rfl, rfl, rfl, rfl⟩⟩

theorem poll_miner_alive_iff_truthy_witness :
    (offlineResult ⟨"W", some "10.0.0.2", 7⟩).alive =
      ((truthyFilter (send_tcp_json (fun _ _ _ => none) (some "10.0.0.2") 7
          ⟨"summary", DEFAULT_TOKEN⟩)).isSome ||
        (truthyFilter (send_tcp_json (fun _ _ _ => none) (some "10.0.0.2") 7
          ⟨"devs", DEFAULT_TOKEN⟩)).isSome) :=
  (poll_miner_alive_iff_truthy (fun _ _ _ => none) ⟨"W", some "10.0.0.2", 7⟩
    (offlineResult ⟨"W", some "10.0.0.2", 7⟩) rfl).1

/-- A device is unreachable in a cycle when neither command's poll produces
a decodable reply. -/
def unreachable (net : Net) (m : Miner) : Bool :=
  (send_tcp_json net m.ip m.port ⟨"summary", DEFAULT_TOKEN⟩).isNone &&
  (send_tcp_json net m.ip m.port ⟨"devs", DEFAULT_TOKEN⟩).isNone

theorem pollOrFallback_offline_of_unreachable (net : Net) (m : Miner)
    (h : unreachable net m = true) : pollOrFallback net m = offlineResult m := by
  simp only [unreachable, Bool.and_eq_true, Option.isNone_iff_eq_none] at h
  unfold pollOrFallback poll_miner
  rw [h.1, h.2]
  by_cases hip : ipTruthy m.ip = true
  · rw [if_neg (by simp [hip])]
    rfl
  · rw [if_pos (by simpa using hip)]

/-- C2 amended: for every device list and network behaviour, the refresh
joins exactly one record per device (a permutation of the per-device
results, so no device's failure suppresses another's record), sorted by
label; every unreachable device contributes the offline record with all data
fields absent.  At least those k records are offline — not exactly k, see
the counterexample: a reply decoding to a falsy value (or a normalization
error) also yields an offline/fallback record. -/
theorem get_live_data_isolation (net : Net) (miners : List Miner) :
    (get_live_data_core net miners).length = miners.length ∧
    (get_live_data_core net miners).Perm (miners.map (pollOrFallback net)) ∧
    List.Sorted recLe (get_live_data_core net miners) ∧
    miners.countP (fun m => unreachable net m) ≤
      (get_live_data_core net miners).countP (fun r => !r.alive) ∧
    (∀ m ∈ miners, unreachable net m = true → pollOrFallback net m = offlineResult m) := by
  refine ⟨?_, List.perm_insertionSort recLe _, List.sorted_insertionSort recLe _, ?_,
    fun m _ h => pollOrFallback_offline_of_unreachable net m h⟩
  · unfold get_live_data_core
    rw [(List.perm_insertionSort recLe _).length_eq, List.length_map]
  · unfold get_live_data_core
    rw [(List.perm_insertionSort recLe _).countP_eq, List.countP_map]
    refine List.countP_mono_left (fun m _ hm => ?_)
    have := pollOrFallback_offline_of_unreachable net m hm
    simp [Function.comp, this, offlineResult]

theorem get_live_data_isolation_witness :
    (get_live_data_core (fun _ _ _ => none) [⟨"m1", some "10.0.0.1", 204⟩]).length = 1 ∧
    pollOrFallback (fun _ _ _ => none) ⟨"m1", some "10.0.0.1", 204⟩ =
      offlineResult ⟨"m1", some "10.0.0.1", 204⟩ :=
  ⟨(get_live_data_isolation (fun _ _ _ => none) [⟨"m1", some "10.0.0.1", 204⟩]).1,
   (get_live_data_isolation (fun _ _ _ => none) [⟨"m1", some "10.0.0.1", 204⟩]).2.2.2.2
     ⟨"m1", some "10.0.0.1", 204⟩ (List.mem_singleton.mpr rfl) rfl⟩

/-- C2 counterexample: two devices, one unreachable (k = 1), the other
reachable and answering both commands with the decodable empty object —
the claim says exactly 1 record is marked offline, but the snapshot marks
both offline. -/
theorem get_live_data_empty_reply_cex :
    ([⟨"m1", some "10.0.0.1", 1⟩, ⟨"m2", some "10.0.0.1", 2⟩] : List Miner).countP
        (fun m => unreachable (fun _ port _ => if port = 1 then some (.obj []) else none) m)
      = 1 ∧
    (fun _ port _ => if port = 1 then some (.obj []) else none : Net) "10.0.0.1" 1
        ⟨"summary", DEFAULT_TOKEN⟩ = some (.obj []) ∧
    (get_live_data_core (fun _ port _ => if port = 1 then some (.obj []) else none)
        [⟨"m1", some "10.0.0.1", 1⟩, ⟨"m2", some "10.0.0.1", 2⟩]).countP
        (fun r => !r.alive) = 2 :=
  ⟨rfl, rfl, rfl⟩

/-- C1 counterexample: tracker state anchored at saturday 0 with one login
on day 0; at a time in the following week the freshly computed anchor is 7,
yet get_week_report stays anchored at 0 and still reports the old bucket's
single login — it neither recomputes nor rolls the stale anchor. -/
theorem get_week_report_stale_cex :
    get_current_saturday 604800 = 7 ∧
    (get_week_report ⟨[(0, [100])], some 0, some 100⟩ 604800).saturday = 0 ∧
    ((get_week_report ⟨[(0, [100])], some 0, some 100⟩ 604800).days.map
      (fun dr => dr.count)).sum = 1 :=
  ⟨rfl, rfl, rfl⟩

/-- C1 amended: get_week_report never rolls the anchor.  Whenever an anchor
is stored it is used as-is — stale or not — and each reported day carries
exactly the stored bucket's entries for its date; only when no anchor has
ever been stored does the report fall back to the freshly computed
week-start.  (Rolling and discarding happen only inside update_login_data.) -/
theorem get_week_report_uses_stored_anchor (st : LoginData) (t : ℕ) :
    (∀ A, st.current_saturday = some A → (get_week_report st t).saturday = A) ∧
    (st.current_saturday = none →
      (get_week_report st t).saturday = get_current_saturday t) ∧
    (∀ dr ∈ (get_week_report st t).days,
      dr.logins = (weekLookup st.current_week dr.date).getD [] ∧
        dr.count = dr.logins.length) := by
  refine ⟨fun A hA => ?_, fun hN => ?_, fun dr hdr => ?_⟩
  · simp [get_week_report, hA]
  · simp [get_week_report, hN]
  · simp only [get_week_report, List.mem_map, List.mem_range] at hdr
    obtain ⟨i, _, rfl⟩ := hdr
    exact ⟨rfl, rfl⟩

theorem get_week_report_uses_stored_anchor_witness :
    (get_week_report ⟨[(3, [5])], some 3, none⟩ 604800).saturday = 3 ∧
    (get_week_report ⟨[], none, none⟩ 604800).saturday = get_current_saturday 604800 :=
  ⟨(get_week_report_uses_stored_anchor ⟨[(3, [5])], some 3, none⟩ 604800).1 3 rfl,
   (get_week_report_uses_stored_anchor ⟨[], none, none⟩ 604800).2.1 rfl⟩

/-- A first visit on a fresh tracker rolls to the computed saturday and
stores exactly the one time-of-day under the visit's date. -/
theorem update_login_data_first (t : ℕ) :
    update_login_data init_login_data t =
      ⟨[(dayOf t, [todOf t])], some (get_current_saturday t), some t⟩ := by
  simp [update_login_data, should_record_login, init_login_data, bucketAdd,
    weekLookup, pySortedAppend, List.insertionSort, List.orderedInsert]

theorem bucketAdd_same_day (d tod1 tod2 : ℕ) (h : tod1 ≠ tod2) :
    bucketAdd [(d, [tod1])] d tod2 = [(d, pySortedAppend [tod1] tod2)] := by
  simp [bucketAdd, weekLookup, h, Ne.symm h]

theorem bucketAdd_new_day (d1 d2 tod1 tod2 : ℕ) (h : ¬ d1 = d2) :
    bucketAdd [(d1, [tod1])] d2 tod2 = [(d1, [tod1]), (d2, pySortedAppend [] tod2)] := by
  simp [bucketAdd, weekLookup, h]

/-- C9 amended: a second recordVisit less than 300 seconds after the first is
a silent no-op (the whole tracker state is unchanged and only one time entry
is stored); a second visit at least 300 seconds later stores a second entry
provided both visits fall in the same computed week — when the week rolled
over in between, the bucket is cleared first and only the new entry remains
(see the counterexample). -/
theorem record_visit_rate_limit (t1 t2 : ℕ) :
    ((t2 : ℤ) - (t1 : ℤ) < 300 →
      update_login_data (update_login_data init_login_data t1) t2 =
          update_login_data init_login_data t1 ∧
        totalLogins (update_login_data init_login_data t1) = 1) ∧
    (300 ≤ (t2 : ℤ) - (t1 : ℤ) →
      get_current_saturday t1 = get_current_saturday t2 →
      totalLogins (update_login_data (update_login_data init_login_data t1) t2) = 2) := by
  constructor
  · intro h
    have hshould : should_record_login
        ⟨[(dayOf t1, [todOf t1])], some (get_current_saturday t1), some t1⟩ t2 = false := by
      simp only [should_record_login, decide_eq_false_iff_not, not_le]
      omega
    rw [update_login_data_first]
    constructor
    · rw [update_login_data, hshould]
      simp
    · simp [totalLogins]
  · intro h hsat
    rw [update_login_data_first]
    have hshould : should_record_login
        ⟨[(dayOf t1, [todOf t1])], some (get_current_saturday t1), some t1⟩ t2 = true := by
      simp only [should_record_login, decide_eq_true_eq]
      omega
    rw [update_login_data, hshould]
    rw [if_neg (by simp)]
    dsimp only
    rw [if_pos (by rw [hsat])]
    dsimp only
    by_cases hd : dayOf t1 = dayOf t2
    · have htod : todOf t1 ≠ todOf t2 := by
        simp only [dayOf] at hd
        simp only [todOf]
        omega
      rw [hd, bucketAdd_same_day _ _ _ htod]
      simp only [totalLogins, List.map, List.sum_cons, List.sum_nil]
      rw [pySortedAppend, (List.perm_insertionSort (fun a b : ℕ => a ≤ b) _).length_eq]
      rfl
    · rw [bucketAdd_new_day _ _ _ _ hd]
      simp [totalLogins, pySortedAppend, List.insertionSort, List.orderedInsert]

theorem record_visit_rate_limit_witness :
    (update_login_data (update_login_data init_login_data 1000) 1100 =
        update_login_data init_login_data 1000 ∧
      totalLogins (update_login_data init_login_data 1000) = 1) ∧
    totalLogins (update_login_data (update_login_data init_login_data 1000) 1400) = 2 :=
  ⟨(record_visit_rate_limit 1000 1100).1 (by decide),
   (record_visit_rate_limit 1000 1400).2 (by decide) (by decide)⟩

/-- C9 counterexample: two visits 400 ≥ 300 seconds apart, but the second
falls in the next week (computed saturday 7 instead of 0): the rollover
clears the bucket, so only one entry — not two — is stored. -/
theorem record_visit_rollover_cex :
    (300 : ℤ) ≤ (605100 : ℤ) - (604700 : ℤ) ∧
    get_current_saturday 604700 = 0 ∧
    get_current_saturday 605100 = 7 ∧
    totalLogins (update_login_data (update_login_data init_login_data 604700) 605100) = 1 :=
  ⟨by decide, by decide, by decide, by decide⟩

/-- The well-formedness invariant of the week bucket: every stored date lies
in the anchored week [A, A + 6] (in particular an anchor exists whenever any
entry does) and every date's time-of-day list is strictly increasing, i.e.
sorted ascending and duplicate-free. -/
def WeekInv (st : LoginData) : Prop :=
  ∀ kv ∈ st.current_week,
    (∃ A, st.current_saturday = some A ∧ A ≤ kv.1 ∧ kv.1 ≤ A + 6) ∧
    List.Pairwise (fun a b : ℕ => a < b) kv.2

theorem pairwise_lt_pySortedAppend (l : List ℕ) (x : ℕ)
    (h : List.Pairwise (fun a b : ℕ => a < b) l) (hx : x ∉ l) :
    List.Pairwise (fun a b : ℕ => a < b) (pySortedAppend l x) := by
  have hsorted : List.Sorted (fun a b : ℕ => a ≤ b) (pySortedAppend l x) :=
    List.sorted_insertionSort _ _
  have hnodup0 : (l ++ [x]).Nodup := by
    rw [List.nodup_append]
    refine ⟨h.imp (fun hab => Nat.ne_of_lt hab), List.nodup_singleton x, ?_⟩
    intro a ha hax
    rw [List.mem_singleton] at hax
    exact hx (hax ▸ ha)
  have hnodup : (pySortedAppend l x).Nodup :=
    ((List.perm_insertionSort (fun a b : ℕ => a ≤ b) (l ++ [x])).nodup_iff).mpr hnodup0
  exact hsorted.lt_of_le hnodup

/-- Membership analysis for the bucket update of lines 282-287. -/
theorem bucketAdd_mem (week : List (ℕ × List ℕ)) (d tod : ℕ) (kv : ℕ × List ℕ)
    (hkv : kv ∈ bucketAdd week d tod) :
    ∃ kv0, (kv0 ∈ week ∨ kv0 = (d, ([] : List ℕ))) ∧ kv.1 = kv0.1 ∧
      (kv.2 = kv0.2 ∨ (kv.2 = pySortedAppend kv0.2 tod ∧ tod ∉ kv0.2)) := by
  unfold bucketAdd at hkv
  rw [List.mem_map] at hkv
  obtain ⟨kv0, hkv0, rfl⟩ := hkv
  have hmem : kv0 ∈ week ∨ kv0 = (d, ([] : List ℕ)) := by
    by_cases hlk : (weekLookup week d).isNone
    · rw [if_pos hlk, List.mem_append, List.mem_singleton] at hkv0
      exact hkv0
    · rw [if_neg hlk] at hkv0
      exact Or.inl hkv0
  refine ⟨kv0, hmem, ?_, ?_⟩
  · by_cases hc : (kv0.1 == d && !kv0.2.contains tod) = true
    · rw [if_pos hc]
    · rw [if_neg hc]
  · by_cases hc : (kv0.1 == d && !kv0.2.contains tod) = true
    · rw [if_pos hc]
      right
      rw [Bool.and_eq_true, Bool.not_eq_true'] at hc
      refine ⟨rfl, ?_⟩
      intro hmem2
      have h3 : kv0.2.contains tod = true := List.elem_eq_true_of_mem hmem2
      rw [hc.2] at h3
      exact Bool.noConfusion h3
    · rw [if_neg hc]
      exact Or.inl rfl

/-- C10: update_login_data preserves the week-bucket invariant: every date
key stays within [anchor, anchor + 6] of the stored anchor and every date's
time-of-day list stays duplicate-free and sorted ascending.  get_week_report
performs no state mutation (it is a pure function of the state in this
embedding, as in the source), so it preserves the invariant trivially. -/
theorem login_invariant_preserved (st : LoginData) (t : ℕ) (h : WeekInv st) :
    WeekInv (update_login_data st t) := by
  by_cases hrec : should_record_login st t = true
  case neg =>
    rw [update_login_data, if_pos (by simpa using hrec)]
    exact h
  case pos =>
    rw [update_login_data, if_neg (by simp [hrec])]
    dsimp only
    have hdlow : get_current_saturday t ≤ dayOf t := Nat.sub_le _ _
    have hdhigh : dayOf t ≤ get_current_saturday t + 6 := by
      unfold get_current_saturday
      dsimp only
      omega
    by_cases hroll : st.current_saturday = some (get_current_saturday t)
    · rw [if_pos hroll]
      intro kv hkv
      obtain ⟨kv0, hmem, hkey, hval⟩ := bucketAdd_mem _ _ _ _ hkv
      constructor
      · rcases hmem with hmem | hmem
        · obtain ⟨A, hA, h1, h2⟩ := (h kv0 hmem).1
          exact ⟨A, hA, hkey ▸ h1, hkey ▸ h2⟩
        · refine ⟨get_current_saturday t, hroll, ?_, ?_⟩
          · rw [hkey, hmem]
            exact hdlow
          · rw [hkey, hmem]
            exact hdhigh
      · have hpw0 : List.Pairwise (fun a b : ℕ => a < b) kv0.2 := by
          rcases hmem with hmem | hmem
          · exact (h kv0 hmem).2
          · rw [hmem]
            exact List.Pairwise.nil
        rcases hval with hval | ⟨hval, hnotmem⟩
        · rw [hval]
          exact hpw0
        · rw [hval]
          exact pairwise_lt_pySortedAppend _ _ hpw0 hnotmem
    · rw [if_neg hroll]
      intro kv hkv
      obtain ⟨kv0, hmem, hkey, hval⟩ := bucketAdd_mem _ _ _ _ hkv
      have hmem2 : kv0 = (dayOf t, ([] : List ℕ)) := by
        rcases hmem with hmem | hmem
        · exact absurd hmem (List.not_mem_nil kv0)
        · exact hmem
      constructor
      · refine ⟨get_current_saturday t, rfl, ?_, ?_⟩
        · rw [hkey, hmem2]
          exact hdlow
        · rw [hkey, hmem2]
          exact hdhigh
      · rcases hval with hval | ⟨hval, _⟩
        · rw [hval, hmem2]
          exact List.Pairwise.nil
        · rw [hval, hmem2]
          exact pairwise_lt_pySortedAppend _ _ List.Pairwise.nil (List.not_mem_nil _)

theorem login_invariant_preserved_witness :
    WeekInv (update_login_data init_login_data 86400) :=
  login_invariant_preserved init_login_data 86400
    (fun kv hkv => absurd hkv (List.not_mem_nil kv))

def temp583 : ℚ := ⟨583, 10, by norm_num, by norm_num⟩

def scen_summary : Json :=
  .obj [("SUMMARY", .arr [.obj [("MHS av", .num 45000000), ("Uptime", .num 93784)]])]

def scen_devs : Json :=
  .obj [("DEVS", .arr [.obj [("Temperature", .num temp583)],
    .obj [("Temperature", .num 61)]])]

def scen_net : Net := fun _ port p =>
  if port = 204 then
    (if p.cmd = "summary" then some scen_summary
     else if p.cmd = "devs" then some scen_devs else none)
  else none

def scen_d1 : Miner := ⟨"D1", some "192.0.2.1", 204⟩

def scen_d2 : Miner := ⟨"D2", some "192.0.2.1", 205⟩

/-- C4: the end-to-end scenario.  D1 answers summary with MHS av 45000000
and Uptime 93784 and devs with board temperatures 58.3 and 61.0; D2 answers
neither command.  The snapshot lists D1 alive with hashrate 45.0, uptime
"1d 2h 3m" and temps [58.3, 61.0], D2 offline with all fields absent, and
the total hashrate is 45.0. -/
theorem end_to_end_scenario :
    temp583 = 583 / 10 ∧
    get_live_data_core scen_net [scen_d1, scen_d2] =
      [⟨"D1 (204)", true, .num 45, some "1d 2h 3m", none, [temp583, 61]⟩,
       ⟨"D2 (205)", false, .null, none, none, []⟩] ∧
    calculate_total_hashrate (get_live_data_core scen_net [scen_d1, scen_d2]) = 45 := by
  have htemp : temp583 = 583 / 10 := by
    rw [temp583, Rat.mk'_eq_divInt, Rat.divInt_eq_div]
    norm_num
  have e1 : roundTo 2 ((45000000 : ℚ) / 1000000) = 45 := by
    norm_num [roundTo, roundHalfEven]
  have e2 : roundTo 1 temp583 = temp583 := by
    rw [htemp]
    norm_num [roundTo, roundHalfEven]
  have e3 : roundTo 1 (61 : ℚ) = 61 := by
    norm_num [roundTo, roundHalfEven]
  have h1 : poll_miner scen_net scen_d1 =
      .ok ⟨"D1 (204)", true, .num (roundTo 2 ((45000000 : ℚ) / 1000000)),
        some "1d 2h 3m", none, [roundTo 1 temp583, roundTo 1 (61 : ℚ)]⟩ := rfl
  have h2 : poll_miner scen_net scen_d2 = .ok (offlineResult scen_d2) := rfl
  have hcore : get_live_data_core scen_net [scen_d1, scen_d2] =
      [⟨"D1 (204)", true, .num 45, some "1d 2h 3m", none, [temp583, 61]⟩,
       ⟨"D2 (205)", false, .null, none, none, []⟩] := by
    unfold get_live_data_core
    simp only [List.map, pollOrFallback, h1, h2]
    rw [e1, e2, e3]
    rfl
  refine ⟨htemp, hcore, ?_⟩
  rw [hcore]
  show roundTo 2 (0 + 45) = 45
  norm_num [roundTo, roundHalfEven]
